import Mathlib

/-!
# AuthForm: phone + one-time-code form

A shallow embedding of `src/components/AuthForm.js`.

* A JavaScript string is a list of Unicode code points (`List Char`); `s.length` of the
  source is `jsLength` (UTF-16 code units), `[...s]` is `spread` (one string per code point).
* JavaScript values that are tested for truthiness are `JSVal`, with `||`, `&&` and `!`
  returning operands exactly as JavaScript does.
* React state is the record `FormState`; an event handler is a function on it.  Calls to
  `.focus()` and `setTimeout` are recorded in the same record (`focusTarget`, `timers`).
* `libphonenumber-js` and the content bundle are parameters (`Env`).
-/

namespace AuthForm

/-! ## JavaScript strings and values -/

/-- A JavaScript string, as the list of its code points. -/
abbrev JSString := List Char

/-- Number of UTF-16 code units of one code point. -/
def utf16Size (c : Char) : Nat :=
  if c.toNat < 65536 then 1 else 2

/-- The `length` property of a string: its number of UTF-16 code units. -/
def jsLength (s : JSString) : Nat :=
  (s.map utf16Size).sum

/-- The array `[...s]`: the string iterator yields one string per code point. -/
def spread (s : JSString) : List JSString :=
  s.map (fun c => [c])

/-- The call `arr.filter((val, index) => p val index)`, the index counted from `start`. -/
def filterIndexed {α : Type} (p : α → Nat → Bool) : List α → Nat → List α
  | [], _ => []
  | x :: xs, start =>
    if p x start then x :: filterIndexed p xs (start + 1) else filterIndexed p xs (start + 1)

/-- The call `arr.join('')`. -/
def join (arr : List JSString) : JSString :=
  arr.flatten

/-- The JavaScript values the component tests for truthiness. -/
inductive JSVal where
  | undefined : JSVal
  | bool (b : Bool) : JSVal
  | num (n : Nat) : JSVal
  | str (s : JSString) : JSVal
  deriving DecidableEq, Repr

/-- The conversion `ToBoolean`. -/
def truthy : JSVal → Bool
  | .undefined => false
  | .bool b => b
  | .num n => n != 0
  | .str s => !s.isEmpty

/-- The operator `a || b`: the left operand when it is truthy, else the right one. -/
def jsOr (a b : JSVal) : JSVal :=
  if truthy a then a else b

/-- The operator `a && b`: the left operand when it is falsy, else the right one. -/
def jsAnd (a b : JSVal) : JSVal :=
  if truthy a then b else a

/-- The operator `!a`. -/
def jsNot (a : JSVal) : JSVal :=
  .bool (!truthy a)

/-! ## External collaborators -/

/-- A country code of `libphonenumber-js`: two letters. -/
structure CountryCode where
  fst : Char
  snd : Char
  deriving DecidableEq, Repr

/-- The string of a country code. -/
def CountryCode.toJSString (c : CountryCode) : JSString :=
  [c.fst, c.snd]

/-- The object `parsePhoneNumberFromString` returns: `country` is a country code or
`undefined`. -/
structure PhoneNumber where
  country : Option CountryCode
  deriving DecidableEq, Repr

/-- The value `parsedPhone.country`. -/
def PhoneNumber.countryVal (p : PhoneNumber) : JSVal :=
  match p.country with
  | some c => .str c.toJSString
  | none => .undefined

/-- What the component imports: the two functions of `libphonenumber-js` it calls and the
strings of `authContent[language]` it stores or shows as errors. -/
structure Env where
  isValidNumber : JSString → Bool
  parsePhoneNumberFromString : JSString → Option PhoneNumber
  incomplete : JSString
  missingCountryCode : JSString
  invalid : JSString
  btnError : JSString

/-! ## State -/

/-- An element the component gives focus to. -/
inductive FocusTarget where
  | codeCell (idx : Nat) : FocusTarget
  | submitBtn : FocusTarget
  deriving DecidableEq, Repr

/-- A pending `setTimeout(() => target.focus(), delay)`. -/
structure Timer where
  delay : Nat
  target : FocusTarget
  deriving DecidableEq, Repr

/-- The `useState` cells of the component, then the focus it has requested:
`focusTarget` is the element of the latest `.focus()` call, `timers` the timeouts set. -/
structure FormState where
  phoneError : JSVal
  authError : JSVal
  countryCode : JSString
  code : JSString
  phone : JSString
  focused : Bool
  focusTarget : Option FocusTarget
  timers : List Timer
  deriving DecidableEq, Repr

/-- The state of the first render. -/
def initial : FormState :=
  { phoneError := .bool false
    authError := .bool false
    countryCode := []
    code := []
    phone := []
    focused := false
    focusTarget := none
    timers := [] }

/-- The cells rendered, `[0, 1, 2, 3, 4, 5]`. -/
def cells : List Nat :=
  [0, 1, 2, 3, 4, 5]

/-- The entry `codeInputRef.current[idx]` once the six cells are mounted: each cell
registers itself under its index, any other index is `undefined`. -/
def codeInputRef (idx : Nat) : Option FocusTarget :=
  if idx ∈ cells then some (.codeCell idx) else none

/-! ## Derived values of a render -/

/-- The constant `codeIsComplete = code.length === 6`. -/
def codeIsComplete (s : FormState) : JSVal :=
  .bool (jsLength s.code == 6)

/-- The constant `phoneIsValid = phone && isValidNumber(phone)`. -/
def phoneIsValid (env : Env) (s : FormState) : JSVal :=
  jsAnd (.str s.phone) (.bool (env.isValidNumber s.phone))

/-- The operand `!parsedPhone || !parsedPhone.country || !phoneIsValid`, evaluated left
to right: on `undefined` the first disjunct is `true` and nothing else is read. -/
def parseFails (env : Env) (s : FormState) : JSVal :=
  match env.parsePhoneNumberFromString s.phone with
  | none => .bool true
  | some p => jsOr (jsNot p.countryVal) (jsNot (phoneIsValid env s))

/-- The constant
`error = phoneError || (phone.length && !focused && (!parsedPhone || ...))`. -/
def error (env : Env) (s : FormState) : JSVal :=
  jsOr s.phoneError
    (jsAnd (jsAnd (.num (jsLength s.phone)) (jsNot (.bool s.focused))) (parseFails env s))

/-- Whether `{!!error && <p>...</p>}` renders the phone error paragraph. -/
def phoneErrorShown (env : Env) (s : FormState) : Bool :=
  truthy (jsNot (jsNot (error env s)))

/-- The text of the phone error paragraph. -/
def phoneErrorText (env : Env) (s : FormState) : JSVal :=
  jsOr s.phoneError
    (match env.parsePhoneNumberFromString s.phone with
     | none => .str env.missingCountryCode
     | some p =>
       if truthy (jsNot p.countryVal) then .str env.missingCountryCode else .str env.invalid)

/-- Whether `{authError && <p>...</p>}` renders the auth error paragraph. -/
def authErrorShown (s : FormState) : Bool :=
  truthy s.authError

/-- The attribute `disabled={!(codeIsComplete && phoneIsValid)}` of the submit button. -/
def submitDisabled (env : Env) (s : FormState) : Bool :=
  truthy (jsNot (jsAnd (codeIsComplete s) (phoneIsValid env s)))

/-- The submit button accepts activation. -/
def submitEnabled (env : Env) (s : FormState) : Bool :=
  !submitDisabled env s

/-- The attribute `disabled={!code.length}` of the reset button. -/
def resetDisabled (s : FormState) : Bool :=
  truthy (jsNot (.num (jsLength s.code)))

/-- The reset button accepts activation. -/
def resetEnabled (s : FormState) : Bool :=
  !resetDisabled s

/-- The attribute `value={[...code][idx] || ''}` of cell `idx`. -/
def cellValue (s : FormState) (idx : Nat) : JSVal :=
  jsOr (match (spread s.code)[idx]? with
        | some ch => .str ch
        | none => .undefined) (.str [])

/-! ## Event handlers -/

/-- The handler `onFocus` of the phone input. -/
def phoneOnFocus (s : FormState) : FormState :=
  { s with focused := true }

/-- The handler `onBlur` of the phone input. -/
def phoneOnBlur (s : FormState) : FormState :=
  { s with focused := false }

/-- The handler `onChange` of the phone input, called with `{ value }`. -/
def phoneOnChange (env : Env) (s : FormState) (value : JSString) : FormState :=
  let s1 := if truthy s.phoneError then { s with phoneError := .bool false } else s
  let s2 := { s1 with phone := value }
  if env.isValidNumber value then { s2 with focusTarget := codeInputRef 0 } else s2

/-- The handler `onClick` of the send-code button. -/
def sendCodeOnClick (env : Env) (s : FormState) : FormState :=
  if truthy (jsOr (jsNot (.str s.phone)) (jsNot (.bool (env.isValidNumber s.phone)))) then
    { s with phoneError := .str env.incomplete }
  else s

/-- The string passed to `setCode` by the `onChange` of cell `idx`:
`[...code].filter((val, index) => index < idx).concat(value).join('')`. -/
def rebuildCode (code : JSString) (idx : Nat) (value : JSString) : JSString :=
  join (filterIndexed (fun _ index => decide (index < idx)) (spread code) 0 ++ [value])

/-- The handler `onChange` of code cell `idx`, with `value = e.target.value`. -/
def codeOnChange (s : FormState) (idx : Nat) (value : JSString) : FormState :=
  let s1 := { s with code := rebuildCode s.code idx value }
  let nextField := codeInputRef (idx + 1)
  if idx ≠ 5 ∧ nextField.isSome then { s1 with focusTarget := nextField }
  else { s1 with timers := s1.timers ++ [{ delay := 100, target := .submitBtn }] }

/-- The handler `onClick` of the reset button. -/
def resetOnClick (s : FormState) : FormState :=
  { s with code := [], focusTarget := codeInputRef 0 }

/-- The handler `onClick` of the submit button once `fetch` has resolved, `ok` being
`response.ok`. -/
def submitOnClick (env : Env) (s : FormState) (ok : Bool) : FormState :=
  if ok then s else { s with authError := .str env.btnError }

/-! ## Events -/

/-- What can happen to the form. -/
inductive Event where
  | phoneChange (value : JSString) : Event
  | phoneFocus : Event
  | phoneBlur : Event
  | sendCode : Event
  | codeInput (idx : Nat) (value : JSString) : Event
  | reset : Event
  | submit (ok : Bool) : Event
  deriving DecidableEq, Repr

/-- An event the rendered form can deliver: a code entry comes from one of the six cells
and, the cells having `maxLength="1"`, carries a value of length at most 1. -/
def Event.deliverable : Event → Bool
  | .codeInput idx value => decide (idx ∈ cells) && decide (jsLength value ≤ 1)
  | _ => true

/-- One event: the handler runs, except that a disabled button delivers no click. -/
def step (env : Env) (s : FormState) : Event → FormState
  | .phoneChange value => phoneOnChange env s value
  | .phoneFocus => phoneOnFocus s
  | .phoneBlur => phoneOnBlur s
  | .sendCode => sendCodeOnClick env s
  | .codeInput idx value => codeOnChange s idx value
  | .reset => if resetDisabled s then s else resetOnClick s
  | .submit ok => if submitDisabled env s then s else submitOnClick env s ok

/-- The state after a sequence of events. -/
def run (env : Env) (s : FormState) (events : List Event) : FormState :=
  events.foldl (step env) s

/-- The code holds at most six characters, each one UTF-16 code unit long. -/
def CodeOk (s : FormState) : Prop :=
  (∀ c ∈ s.code, utf16Size c = 1) ∧ s.code.length ≤ 6

/-! ## A concrete environment -/

/-- An environment for concrete runs: one number, `+4560550709`, is valid; a string
starting `+45` parses with country `DK`, another one starting `+` parses without a
country, anything else does not parse. -/
def sampleEnv : Env :=
  { isValidNumber := fun s => s == ['+', '4', '5', '6', '0', '5', '5', '0', '7', '0', '9']
    parsePhoneNumberFromString := fun s =>
      match s with
      | '+' :: '4' :: '5' :: _ => some { country := some { fst := 'D', snd := 'K' } }
      | '+' :: _ => some { country := none }
      | _ => none
    incomplete := ['i', 'n', 'c', 'o', 'm', 'p', 'l', 'e', 't', 'e']
    missingCountryCode := ['n', 'o', 'c', 'o', 'u', 'n', 't', 'r', 'y']
    invalid := ['i', 'n', 'v', 'a', 'l', 'i', 'd']
    btnError := ['d', 'e', 'n', 'i', 'e', 'd'] }

/-! ## Lemmas on strings and values -/

theorem filterIndexed_lt {α : Type} (idx : Nat) (l : List α) (start : Nat) :
    filterIndexed (fun _ index => decide (index < idx)) l start = l.take (idx - start) := by
  induction l generalizing start with
  | nil => simp [filterIndexed]
  | cons x xs ih =>
    by_cases h : start < idx
    · have e : idx - start = (idx - (start + 1)) + 1 := by omega
      simp [filterIndexed, h, ih, e]
    · have e : idx - start = 0 := by omega
      have h1 : ¬ start + 1 < idx := by omega
      have e1 : idx - (start + 1) = 0 := by omega
      have := ih (start + 1)
      simp [filterIndexed, h, e, this, e1]

theorem flatten_spread (s : JSString) : (spread s).flatten = s := by
  induction s with
  | nil => rfl
  | cons c cs ih => simpa [spread] using ih

theorem spread_take (s : JSString) (n : Nat) : (spread s).take n = spread (s.take n) := by
  simp [spread, List.map_take]

theorem rebuildCode_eq (code : JSString) (idx : Nat) (value : JSString) :
    rebuildCode code idx value = code.take idx ++ value := by
  simp [rebuildCode, join, filterIndexed_lt, spread_take, flatten_spread]

theorem codeOnChange_code_eq (s : FormState) (idx : Nat) (value : JSString) :
    (codeOnChange s idx value).code = s.code.take idx ++ value := by
  simp only [codeOnChange]
  split <;> simp [rebuildCode_eq]

theorem utf16Size_pos (c : Char) : 1 ≤ utf16Size c := by
  unfold utf16Size
  split <;> omega

theorem jsLength_nil : jsLength [] = 0 := rfl

theorem jsLength_cons (c : Char) (s : JSString) :
    jsLength (c :: s) = utf16Size c + jsLength s := by
  simp [jsLength]

theorem jsLength_eq_zero_iff (s : JSString) : jsLength s = 0 ↔ s = [] := by
  cases s with
  | nil => simp [jsLength]
  | cons c cs =>
    have := utf16Size_pos c
    simp [jsLength_cons]
    omega

theorem truthy_bool (b : Bool) : truthy (.bool b) = b := rfl

theorem truthy_jsOr (a b : JSVal) : truthy (jsOr a b) = (truthy a || truthy b) := by
  unfold jsOr
  cases h : truthy a <;> simp [h]

theorem truthy_jsAnd (a b : JSVal) : truthy (jsAnd a b) = (truthy a && truthy b) := by
  unfold jsAnd
  cases h : truthy a <;> simp [h]

theorem truthy_jsNot (a : JSVal) : truthy (jsNot a) = !truthy a := rfl

theorem truthy_str (s : JSString) : truthy (.str s) = true ↔ s ≠ [] := by
  cases s <;> simp [truthy]

theorem truthy_num_jsLength (s : JSString) : truthy (.num (jsLength s)) = true ↔ s ≠ [] := by
  simp [truthy, jsLength_eq_zero_iff]

/-! ## The submit control -/

/-- C1: the submit control is enabled if and only if the phone is non-empty, the external
validity check accepts it, and the code has length 6 (`code.length`, the number of its
characters when they are in the Basic Multilingual Plane); the focus flag and the error
flags play no part. -/
theorem submitEnabled_iff (env : Env) (s : FormState) :
    submitEnabled env s = true ↔
      s.phone ≠ [] ∧ env.isValidNumber s.phone = true ∧ jsLength s.code = 6 := by
  unfold submitEnabled submitDisabled codeIsComplete phoneIsValid
  by_cases h6 : jsLength s.code = 6
  · cases hp : s.phone with
    | nil => simp [jsAnd, jsNot, truthy, h6]
    | cons c cs => cases hv : env.isValidNumber (c :: cs) <;> simp [jsAnd, jsNot, truthy, h6, hv]
  · simp [jsAnd, jsNot, truthy, h6]

/-! ## The code cells -/

/-- C2: for a cell index `i` in 0..5 and a typed character `c`, the change handler of
cell `i` sets the code to the characters of the old code at indices below `i` followed
by `c`; at cell 0 the new code is the one character `c`, whatever the old code was. -/
theorem codeOnChange_code (s : FormState) (i : Nat) (c : Char) (hi : i ≤ 5) :
    (codeOnChange s i [c]).code = s.code.take i ++ [c] ∧
      (i = 0 → (codeOnChange s i [c]).code = [c]) := by
  have h := codeOnChange_code_eq s i [c]
  refine ⟨h, ?_⟩
  intro h0
  subst h0
  simpa using h

/-- Witness of C2: cell 2 of the code `1234`, typed character `9`. -/
theorem codeOnChange_code_witness :
    (2 : Nat) ≤ 5 ∧
      (codeOnChange { initial with code := ['1', '2', '3', '4'] } 2 ['9']).code
        = ['1', '2', '9'] := by
  refine ⟨by decide, ?_⟩
  have h := (codeOnChange_code { initial with code := ['1', '2', '3', '4'] } 2 '9'
    (by decide)).1
  simpa using h

/-- C4, as stated, fails: on the empty code, typing `7` into cell 3 leaves cell 3
empty; the `7` is the whole code and shows in cell 0. -/
theorem cellValue_after_change_counterexample :
    (3 : Nat) ≤ 5 ∧
      cellValue (codeOnChange initial 3 ['7']) 3 ≠ .str ['7'] ∧
      cellValue (codeOnChange initial 3 ['7']) 3 = .str [] ∧
      (codeOnChange initial 3 ['7']).code = ['7'] ∧
      cellValue (codeOnChange initial 3 ['7']) 0 = .str ['7'] := by
  decide

/-- C4, amended: for a cell index `i` in 0..5 and a typed character `c`, after the change
handler of cell `i` that cell displays `c` if and only if the old code had at least `i`
characters; when the old code is shorter than `i`, `c` is appended directly after the
old code and cell `i` stays empty. -/
theorem cellValue_after_change (s : FormState) (i : Nat) (c : Char) :
    i ≤ 5 →
      (cellValue (codeOnChange s i [c]) i = .str [c] ↔ i ≤ s.code.length) ∧
      (s.code.length < i →
        (codeOnChange s i [c]).code = s.code ++ [c] ∧
        cellValue (codeOnChange s i [c]) i = .str []) := by
  intro _
  unfold cellValue
  rw [codeOnChange_code_eq]
  by_cases h : i ≤ s.code.length
  · have hl : (List.take i s.code).length = i := by simp [h]
    have e : (spread (List.take i s.code ++ [c]))[i]? = some [c] := by
      simp [spread, List.getElem?_append_right, hl, Nat.min_eq_left h]
    refine ⟨by simp [e, jsOr, truthy, h], ?_⟩
    intro hlt
    omega
  · have hl : (spread (List.take i s.code ++ [c])).length ≤ i := by
      simp [spread]
      omega
    have e : (spread (List.take i s.code ++ [c]))[i]? = none := by
      simpa using hl
    have ht : List.take i s.code = s.code := List.take_of_length_le (by omega)
    refine ⟨by simp [e, jsOr, truthy, h], ?_⟩
    intro _
    refine ⟨by rw [ht], ?_⟩
    simp [e, jsOr, truthy]

/-- Witness of C4 amended: on the code `12`, `9` typed into cell 2 shows in cell 2;
typed into cell 4 it is appended, the code is `129`, and cell 4 stays empty. -/
theorem cellValue_after_change_witness :
    (2 : Nat) ≤ 5 ∧
      cellValue (codeOnChange { initial with code := ['1', '2'] } 2 ['9']) 2 = .str ['9'] ∧
      (4 : Nat) ≤ 5 ∧
      ({ initial with code := ['1', '2'] } : FormState).code.length < 4 ∧
      (codeOnChange { initial with code := ['1', '2'] } 4 ['9']).code = ['1', '2', '9'] ∧
      cellValue (codeOnChange { initial with code := ['1', '2'] } 4 ['9']) 4 = .str [] :=
  ⟨by decide,
    ((cellValue_after_change { initial with code := ['1', '2'] } 2 '9'
      (by decide)).1).2 (by decide),
    by decide, by decide,
    (cellValue_after_change { initial with code := ['1', '2'] } 4 '9'
      (by decide)).2 (by decide)⟩

/-! ## The length of the code -/

theorem jsLength_eq_length (s : JSString) (h : ∀ c ∈ s, utf16Size c = 1) :
    jsLength s = s.length := by
  induction s with
  | nil => rfl
  | cons c cs ih =>
    have hc : utf16Size c = 1 := h c (by simp)
    have hcs : ∀ d ∈ cs, utf16Size d = 1 := fun d hd => h d (by simp [hd])
    rw [jsLength_cons, hc, ih hcs]
    simp
    omega

theorem short_value (value : JSString) (h : jsLength value ≤ 1) :
    value.length ≤ 1 ∧ ∀ c ∈ value, utf16Size c = 1 := by
  match value, h with
  | [], _ => simp
  | [c], h =>
    have := utf16Size_pos c
    simp [jsLength_cons, jsLength_nil] at h
    simp
    omega
  | c :: d :: rest, h =>
    have h1 := utf16Size_pos c
    have h2 := utf16Size_pos d
    simp [jsLength_cons] at h
    omega

theorem codeOk_initial : CodeOk initial := by
  simp [CodeOk, initial]

theorem codeOk_codeOnChange (s : FormState) (idx : Nat) (value : JSString)
    (hs : CodeOk s) (hidx : idx ∈ cells) (hv : jsLength value ≤ 1) :
    CodeOk (codeOnChange s idx value) := by
  have hidx5 : idx ≤ 5 := by
    simp [cells] at hidx
    omega
  obtain ⟨hlen, hsz⟩ := short_value value hv
  unfold CodeOk
  rw [codeOnChange_code_eq]
  constructor
  · intro c hc
    rcases List.mem_append.mp hc with h | h
    · exact hs.1 c (List.mem_of_mem_take h)
    · exact hsz c h
  · have : (List.take idx s.code).length ≤ idx := by simp
    simp only [List.length_append]
    omega

theorem phoneOnChange_code (env : Env) (s : FormState) (value : JSString) :
    (phoneOnChange env s value).code = s.code := by
  simp only [phoneOnChange]
  split <;> split <;> rfl

theorem sendCodeOnClick_code (env : Env) (s : FormState) :
    (sendCodeOnClick env s).code = s.code := by
  simp only [sendCodeOnClick]
  split <;> rfl

theorem codeOk_step (env : Env) (s : FormState) (e : Event)
    (hs : CodeOk s) (he : e.deliverable = true) : CodeOk (step env s e) := by
  cases e with
  | phoneChange value => simpa [step, CodeOk, phoneOnChange_code] using hs
  | phoneFocus => simpa [step, CodeOk, phoneOnFocus] using hs
  | phoneBlur => simpa [step, CodeOk, phoneOnBlur] using hs
  | sendCode => simpa [step, CodeOk, sendCodeOnClick_code] using hs
  | codeInput idx value =>
    simp only [Event.deliverable, Bool.and_eq_true, decide_eq_true_eq] at he
    exact codeOk_codeOnChange s idx value hs he.1 he.2
  | reset =>
    simp only [step]
    split
    · exact hs
    · simp [CodeOk, resetOnClick]
  | submit ok =>
    simp only [step, submitOnClick]
    split
    · exact hs
    · split
      · exact hs
      · exact hs

theorem codeOk_run (env : Env) (events : List Event) (s : FormState)
    (hs : CodeOk s) (he : ∀ e ∈ events, e.deliverable = true) :
    CodeOk (run env s events) := by
  induction events generalizing s with
  | nil => exact hs
  | cons e es ih =>
    have h1 : CodeOk (step env s e) := codeOk_step env s e hs (he e (by simp))
    have h2 : ∀ x ∈ es, x.deliverable = true := fun x hx => he x (by simp [hx])
    simpa [run] using ih (step env s e) h1 h2

/-- C3: in every state reached from the initial state by a sequence of phone edits,
focus and blur events, send-code, reset and submit activations, and code-cell entries
(cell index in 0..5, typed value of length at most 1), the code has length at most 6. -/
theorem code_length_le_six (env : Env) (events : List Event)
    (he : ∀ e ∈ events, e.deliverable = true) :
    jsLength (run env initial events).code ≤ 6 := by
  have h := codeOk_run env events initial codeOk_initial he
  rw [jsLength_eq_length _ h.1]
  exact h.2

/-- Witness of C3: six entries fill the cells, a seventh overwrites the last cell, the
phone is edited and blurred, send-code is activated. -/
theorem code_length_le_six_witness :
    (∀ e ∈ [Event.codeInput 0 ['1'], .codeInput 1 ['2'], .codeInput 2 ['3'],
        .codeInput 3 ['4'], .codeInput 4 ['5'], .codeInput 5 ['6'], .codeInput 5 ['7'],
        .phoneFocus, .phoneChange ['+', '4'], .phoneBlur, .sendCode],
        e.deliverable = true) ∧
      jsLength (run sampleEnv initial [Event.codeInput 0 ['1'], .codeInput 1 ['2'],
        .codeInput 2 ['3'], .codeInput 3 ['4'], .codeInput 4 ['5'], .codeInput 5 ['6'],
        .codeInput 5 ['7'], .phoneFocus, .phoneChange ['+', '4'], .phoneBlur,
        .sendCode]).code ≤ 6 :=
  ⟨by decide, code_length_le_six sampleEnv _ (by decide)⟩

/-! ## The phone field -/

theorem truthy_countryVal (p : PhoneNumber) :
    truthy p.countryVal = true ↔ p.country ≠ none := by
  cases p with
  | mk country =>
    cases country <;> simp [PhoneNumber.countryVal, truthy, CountryCode.toJSString]

theorem truthy_phoneIsValid (env : Env) (s : FormState) :
    truthy (phoneIsValid env s) = true ↔ s.phone ≠ [] ∧ env.isValidNumber s.phone = true := by
  rw [phoneIsValid, truthy_jsAnd, truthy_bool, Bool.and_eq_true, truthy_str]

/-- C5: activating the send-code control when the phone is empty or not a valid number
sets the manual phone-error flag to the incomplete-phone message of the content, so the
phone error is shown when that message is non-empty, and leaves phone and code as they
were; when the phone is non-empty and valid the control changes nothing. -/
theorem sendCodeOnClick_spec (env : Env) (s : FormState) :
    ((s.phone = [] ∨ env.isValidNumber s.phone = false) →
        (sendCodeOnClick env s).phoneError = .str env.incomplete ∧
        (env.incomplete ≠ [] → phoneErrorShown env (sendCodeOnClick env s) = true) ∧
        (sendCodeOnClick env s).phone = s.phone ∧
        (sendCodeOnClick env s).code = s.code) ∧
      ((s.phone ≠ [] ∧ env.isValidNumber s.phone = true) → sendCodeOnClick env s = s) := by
  have hstr := truthy_str s.phone
  constructor
  · intro h
    have hc : truthy (jsOr (jsNot (.str s.phone))
        (jsNot (.bool (env.isValidNumber s.phone)))) = true := by
      rw [truthy_jsOr, truthy_jsNot, truthy_jsNot, truthy_bool]
      rcases h with h | h
      · have : truthy (.str s.phone) = false := by
          cases ht : truthy (.str s.phone)
          · rfl
          · exact absurd h (hstr.1 ht)
        simp [this]
      · simp [h]
    have e : sendCodeOnClick env s = { s with phoneError := .str env.incomplete } := by
      simp only [sendCodeOnClick, hc, if_true]
    rw [e]
    refine ⟨rfl, ?_, rfl, rfl⟩
    intro hne
    have ht : truthy (.str env.incomplete) = true := (truthy_str _).2 hne
    simp only [phoneErrorShown, error, truthy_jsNot, truthy_jsOr, ht]
    rfl
  · intro h
    have hp : truthy (.str s.phone) = true := hstr.2 h.1
    have hc : truthy (jsOr (jsNot (.str s.phone))
        (jsNot (.bool (env.isValidNumber s.phone)))) = false := by
      rw [truthy_jsOr, truthy_jsNot, truthy_jsNot, truthy_bool, hp, h.2]
      rfl
    simp [sendCodeOnClick, hc]

/-- Witness of C5, first part: send-code on the empty phone of the initial state. -/
theorem sendCodeOnClick_spec_witness :
    (initial.phone = [] ∨ sampleEnv.isValidNumber initial.phone = false) ∧
      (sendCodeOnClick sampleEnv initial).phoneError = .str sampleEnv.incomplete ∧
      phoneErrorShown sampleEnv (sendCodeOnClick sampleEnv initial) = true ∧
      (sendCodeOnClick sampleEnv initial).phone = initial.phone ∧
      (sendCodeOnClick sampleEnv initial).code = initial.code :=
  have h := (sendCodeOnClick_spec sampleEnv initial).1 (Or.inl rfl)
  ⟨Or.inl rfl, h.1, h.2.1 (by decide), h.2.2.1, h.2.2.2⟩

/-- C6: the phone error paragraph is shown if and only if the manual phone-error flag
is set (holds a non-empty message), or the phone is non-empty, the field is not focused,
and the phone does not parse, or parses without a country, or is not a valid number. -/
theorem phoneErrorShown_iff (env : Env) (s : FormState) :
    phoneErrorShown env s = true ↔
      truthy s.phoneError = true ∨
        (s.phone ≠ [] ∧ s.focused = false ∧
          (env.parsePhoneNumberFromString s.phone = none ∨
            (∃ p, env.parsePhoneNumberFromString s.phone = some p ∧ p.country = none) ∨
            env.isValidNumber s.phone = false)) := by
  have hn := truthy_num_jsLength s.phone
  have hv := truthy_phoneIsValid env s
  have hfails : truthy (parseFails env s) = true ↔
      (env.parsePhoneNumberFromString s.phone = none ∨
        (∃ p, env.parsePhoneNumberFromString s.phone = some p ∧ p.country = none) ∨
        ¬ (s.phone ≠ [] ∧ env.isValidNumber s.phone = true)) := by
    unfold parseFails
    cases hparse : env.parsePhoneNumberFromString s.phone with
    | none => simp [truthy_bool]
    | some p =>
      have hc := truthy_countryVal p
      simp only [truthy_jsOr, truthy_jsNot, Bool.or_eq_true, Bool.not_eq_true']
      constructor
      · rintro (h | h)
        · right
          left
          refine ⟨p, rfl, ?_⟩
          by_contra hne
          rw [hc.2 hne] at h
          exact Bool.noConfusion h
        · right
          right
          intro hh
          rw [hv.2 hh] at h
          exact Bool.noConfusion h
      · rintro (h | ⟨q, hq, hnone⟩ | h)
        · exact Option.noConfusion h
        · left
          cases hq
          cases ht : truthy p.countryVal
          · rfl
          · exact absurd hnone (hc.1 ht)
        · right
          cases ht : truthy (phoneIsValid env s)
          · rfl
          · exact absurd (hv.1 ht) h
  simp only [phoneErrorShown, error, truthy_jsNot, truthy_jsOr, truthy_jsAnd, truthy_bool,
    Bool.not_not, Bool.or_eq_true, Bool.and_eq_true, Bool.not_eq_true', hn, hfails]
  constructor
  · rintro (h | ⟨⟨hp, hf⟩, h⟩)
    · exact Or.inl h
    · refine Or.inr ⟨hp, hf, ?_⟩
      rcases h with h | h | h
      · exact Or.inl h
      · exact Or.inr (Or.inl h)
      · refine Or.inr (Or.inr ?_)
        cases hval : env.isValidNumber s.phone
        · rfl
        · exact absurd ⟨hp, hval⟩ h
  · rintro (h | ⟨hp, hf, h⟩)
    · exact Or.inl h
    · refine Or.inr ⟨⟨hp, hf⟩, ?_⟩
      rcases h with h | h | h
      · exact Or.inl h
      · exact Or.inr (Or.inl h)
      · refine Or.inr (Or.inr ?_)
        intro hh
        rw [hh.2] at h
        exact Bool.noConfusion h

/-- C7: the phone change handler leaves the manual phone-error flag cleared, also when
the new value is invalid, stores the new value as the phone, leaves the code unchanged,
and gives focus to code cell 0 when the new value is a valid number and to nothing
otherwise. -/
theorem phoneOnChange_spec (env : Env) (s : FormState) (v : JSString) :
    truthy (phoneOnChange env s v).phoneError = false ∧
      (phoneOnChange env s v).phone = v ∧
      (phoneOnChange env s v).code = s.code ∧
      (env.isValidNumber v = true →
        (phoneOnChange env s v).focusTarget = some (.codeCell 0)) ∧
      (env.isValidNumber v = false →
        (phoneOnChange env s v).focusTarget = s.focusTarget) ∧
      (phoneOnChange env s v).timers = s.timers := by
  simp only [phoneOnChange]
  cases hv : env.isValidNumber v <;> cases he : truthy s.phoneError <;>
    simp [truthy_bool, he, codeInputRef, cells]

/-- Witness of C7: after a send-code error, typing the valid number moves focus to
cell 0, typing `+4` moves it nowhere; both clear the flag. -/
theorem phoneOnChange_spec_witness :
    sampleEnv.isValidNumber ['+', '4', '5', '6', '0', '5', '5', '0', '7', '0', '9'] = true ∧
      (phoneOnChange sampleEnv (sendCodeOnClick sampleEnv initial)
        ['+', '4', '5', '6', '0', '5', '5', '0', '7', '0', '9']).focusTarget
        = some (.codeCell 0) ∧
      sampleEnv.isValidNumber ['+', '4'] = false ∧
      (phoneOnChange sampleEnv (sendCodeOnClick sampleEnv initial) ['+', '4']).focusTarget
        = (sendCodeOnClick sampleEnv initial).focusTarget ∧
      truthy (sendCodeOnClick sampleEnv initial).phoneError = true ∧
      truthy (phoneOnChange sampleEnv (sendCodeOnClick sampleEnv initial)
        ['+', '4']).phoneError = false :=
  ⟨by decide,
    (phoneOnChange_spec sampleEnv (sendCodeOnClick sampleEnv initial)
      ['+', '4', '5', '6', '0', '5', '5', '0', '7', '0', '9']).2.2.2.1 (by decide),
    by decide,
    (phoneOnChange_spec sampleEnv (sendCodeOnClick sampleEnv initial)
      ['+', '4']).2.2.2.2.1 (by decide),
    by decide,
    (phoneOnChange_spec sampleEnv (sendCodeOnClick sampleEnv initial) ['+', '4']).1⟩

/-! ## The reset control -/

/-- C8: the reset control is enabled if and only if the code is non-empty; its handler
sets the code to the empty string, gives focus to code cell 0 and leaves the phone and
both error flags unchanged; on an already-empty code it changes no value of the form
state, and the disabled control delivers no activation at all. -/
theorem resetOnClick_spec (env : Env) (s : FormState) :
    (resetEnabled s = true ↔ s.code ≠ []) ∧
      (resetOnClick s).code = [] ∧
      (resetOnClick s).focusTarget = some (.codeCell 0) ∧
      (resetOnClick s).phone = s.phone ∧
      (resetOnClick s).phoneError = s.phoneError ∧
      (resetOnClick s).authError = s.authError ∧
      (s.code = [] →
        { resetOnClick s with focusTarget := s.focusTarget } = s ∧ step env s .reset = s) := by
  have hn := truthy_num_jsLength s.code
  refine ⟨?_, rfl, by simp [resetOnClick, codeInputRef, cells], rfl, rfl, rfl, ?_⟩
  · rw [resetEnabled, resetDisabled, truthy_jsNot, Bool.not_not, hn]
  · intro h
    have hd : resetDisabled s = true := by
      rw [resetDisabled, truthy_jsNot, h]
      rfl
    constructor
    · simp only [resetOnClick]
      rw [← h]
    · simp [step, hd]

/-- Witness of C8: reset on the initial state, whose code is empty. -/
theorem resetOnClick_spec_witness :
    initial.code = [] ∧
      { resetOnClick initial with focusTarget := initial.focusTarget } = initial ∧
      step sampleEnv initial .reset = initial :=
  ⟨rfl, (resetOnClick_spec sampleEnv initial).2.2.2.2.2.2 rfl⟩

/-! ## Focus after a code entry -/

/-- C9: with the six cells mounted, the change handler of a cell `i` in 0..4 gives focus
to cell `i + 1` at once and schedules nothing; the handler of cell 5 gives focus to no
element and schedules one focus change, to the submit control, with a delay of 100 ms. -/
theorem codeOnChange_focus (s : FormState) (value : JSString) :
    (∀ i, i ≤ 4 →
        (codeOnChange s i value).focusTarget = some (.codeCell (i + 1)) ∧
        (codeOnChange s i value).timers = s.timers) ∧
      (codeOnChange s 5 value).focusTarget = s.focusTarget ∧
      (codeOnChange s 5 value).timers
        = s.timers ++ [{ delay := 100, target := .submitBtn }] := by
  refine ⟨?_, ?_, ?_⟩
  · intro i hi
    have h5 : i ≠ 5 := by omega
    have hmem : i + 1 ∈ cells := by
      simp [cells]
      omega
    simp [codeOnChange, codeInputRef, h5, hmem]
  · simp [codeOnChange]
  · simp [codeOnChange]

/-- Witness of C9: an entry into cell 4 gives focus to cell 5 and sets no timeout. -/
theorem codeOnChange_focus_witness :
    (4 : Nat) ≤ 4 ∧
      (codeOnChange initial 4 ['8']).focusTarget = some (.codeCell 5) ∧
      (codeOnChange initial 4 ['8']).timers = initial.timers :=
  ⟨by decide, (codeOnChange_focus initial ['8']).1 4 (by decide)⟩

/-! ## The auth error -/

/-- C10, as stated, fails: a valid phone and a complete code are entered, the submit
fails and the auth error is shown; it is still shown after a phone edit, after a code
entry and after a reset. -/
theorem authError_cleared_counterexample :
    authErrorShown (run sampleEnv initial
        [.phoneChange ['+', '4', '5', '6', '0', '5', '5', '0', '7', '0', '9'],
          .codeInput 0 ['1'], .codeInput 1 ['2'], .codeInput 2 ['3'], .codeInput 3 ['4'],
          .codeInput 4 ['5'], .codeInput 5 ['6'], .submit false]) = true ∧
      authErrorShown (run sampleEnv initial
        [.phoneChange ['+', '4', '5', '6', '0', '5', '5', '0', '7', '0', '9'],
          .codeInput 0 ['1'], .codeInput 1 ['2'], .codeInput 2 ['3'], .codeInput 3 ['4'],
          .codeInput 4 ['5'], .codeInput 5 ['6'], .submit false,
          .phoneChange ['+', '4', '5']]) = true ∧
      authErrorShown (run sampleEnv initial
        [.phoneChange ['+', '4', '5', '6', '0', '5', '5', '0', '7', '0', '9'],
          .codeInput 0 ['1'], .codeInput 1 ['2'], .codeInput 2 ['3'], .codeInput 3 ['4'],
          .codeInput 4 ['5'], .codeInput 5 ['6'], .submit false,
          .codeInput 0 ['9']]) = true ∧
      authErrorShown (run sampleEnv initial
        [.phoneChange ['+', '4', '5', '6', '0', '5', '5', '0', '7', '0', '9'],
          .codeInput 0 ['1'], .codeInput 1 ['2'], .codeInput 2 ['3'], .codeInput 3 ['4'],
          .codeInput 4 ['5'], .codeInput 5 ['6'], .submit false,
          .reset]) = true := by
  decide

/-- C10, amended: after a failed submit has set the auth-error message, a phone edit, a
code entry at any cell and a reset each leave the auth-error flag as it is, so a
non-empty message is still shown. -/
theorem authError_persists (env : Env) (s : FormState) (v : JSString) (i : Nat)
    (value : JSString) :
    (submitOnClick env s false).authError = .str env.btnError ∧
      (phoneOnChange env (submitOnClick env s false) v).authError = .str env.btnError ∧
      (codeOnChange (submitOnClick env s false) i value).authError = .str env.btnError ∧
      (resetOnClick (submitOnClick env s false)).authError = .str env.btnError ∧
      (env.btnError ≠ [] →
        authErrorShown (phoneOnChange env (submitOnClick env s false) v) = true ∧
        authErrorShown (codeOnChange (submitOnClick env s false) i value) = true ∧
        authErrorShown (resetOnClick (submitOnClick env s false)) = true) := by
  have h0 : (submitOnClick env s false).authError = .str env.btnError := by
    simp [submitOnClick]
  have h1 : ∀ t : FormState, (phoneOnChange env t v).authError = t.authError := by
    intro t
    simp only [phoneOnChange]
    split <;> split <;> rfl
  have h2 : ∀ t : FormState, (codeOnChange t i value).authError = t.authError := by
    intro t
    simp only [codeOnChange]
    split <;> rfl
  have h3 : ∀ t : FormState, (resetOnClick t).authError = t.authError := fun _ => rfl
  refine ⟨h0, by rw [h1, h0], by rw [h2, h0], by rw [h3, h0], ?_⟩
  intro hne
  have ht : truthy (.str env.btnError) = true := (truthy_str _).2 hne
  refine ⟨?_, ?_, ?_⟩
  · rw [authErrorShown, h1, h0, ht]
  · rw [authErrorShown, h2, h0, ht]
  · rw [authErrorShown, h3, h0, ht]

/-- Witness of C10 amended: the message of the concrete environment is non-empty. -/
theorem authError_persists_witness :
    sampleEnv.btnError ≠ [] ∧
      authErrorShown (phoneOnChange sampleEnv (submitOnClick sampleEnv initial false)
        ['+']) = true ∧
      authErrorShown (codeOnChange (submitOnClick sampleEnv initial false) 2 ['7']) = true ∧
      authErrorShown (resetOnClick (submitOnClick sampleEnv initial false)) = true :=
  ⟨by decide, (authError_persists sampleEnv initial ['+'] 2 ['7']).2.2.2.2 (by decide)⟩

end AuthForm
